import Mathlib

/-!
# TodoApp (static/js/script.js): state and view synchronisation

A shallow embedding of the `TodoApp` controller.  The mutable fields of the
class and the parts of the document it writes become one record `State`.
Every `async` method is split at its `await fetch(...)`: the part before the
`await` is a `...Begin` function that returns the request it sends (`none`
when the method returns without sending one), the part after it is a
`...Resume` function
that takes the outcome of the request and the state *at the time the response
arrives*.  `await response.json()` is delivered together with the status
(`body = none` stands for a body that `json()` rejects).

Task ids are natural numbers, `completed` is a boolean, texts are strings.
Timers of `showNotification` (real time) are not modelled: a notification is
the pair handed to `showNotification`, appended to `State.notifications`.
-/

namespace TodoApp

/-! ## Data -/

/-- A task record as returned by the remote service. -/
structure Task where
  id : Nat
  text : String
  priority : String
  completed : Bool
  deriving DecidableEq, Repr

/-- One call of `showNotification(message, type)`. -/
structure Notification where
  message : String
  type : String
  deriving DecidableEq, Repr

/-- The `div.task-item` built for one task inside `renderTasks`; `taskId` is the
id captured by the three event listeners of the row. -/
structure TaskElement where
  className : String
  checked : Bool
  textClass : String
  textHtml : String
  priorityText : String
  taskId : Nat
  deriving DecidableEq, Repr

/-- Fields of `TodoApp` together with the document state it reads and writes. -/
structure State where
  tasks : List Task
  currentFilter : String
  editingTaskId : Option Nat
  taskInput : String
  prioritySelect : String
  editTaskInput : String
  editPrioritySelect : String
  modalDisplay : String
  tasksList : List TaskElement
  emptyStateHidden : Bool
  totalTasks : String
  completedTasks : String
  pendingTasks : String
  notifications : List Notification
  location : String
  deriving DecidableEq, Repr

/-! ## String helpers of the JavaScript runtime -/

/-- ECMAScript `WhiteSpace` and `LineTerminator` code points, the characters
removed by `String.prototype.trim`. -/
def isTrimChar (c : Char) : Bool :=
  let n := c.toNat
  n == 0x09 || n == 0x0A || n == 0x0B || n == 0x0C || n == 0x0D || n == 0x20 ||
  n == 0xA0 || n == 0x1680 || (0x2000 ≤ n && n ≤ 0x200A) || n == 0x2028 ||
  n == 0x2029 || n == 0x202F || n == 0x205F || n == 0x3000 || n == 0xFEFF

/-- Characters of `s.trim()`. -/
def trimChars (cs : List Char) : List Char :=
  ((cs.dropWhile isTrimChar).reverse.dropWhile isTrimChar).reverse

/-- JavaScript `s.trim()`. -/
def trim (s : String) : String :=
  String.mk (trimChars s.data)

/-- Serialisation of one character of a text node (`div.innerHTML` after
`div.textContent = text`). -/
def escapeChar (c : Char) : List Char :=
  if c = '&' then "&amp;".data
  else if c = '<' then "&lt;".data
  else if c = '>' then "&gt;".data
  else if c.toNat = 0xA0 then "&nbsp;".data
  else [c]

/-- The method `escapeHtml(text)`. -/
def escapeHtml (text : String) : String :=
  String.mk (text.data.flatMap escapeChar)

/-- The method `getPriorityText(priority)`. -/
def getPriorityText (priority : String) : String :=
  if priority = "low" then "Низкий"
  else if priority = "medium" then "Средний"
  else if priority = "high" then "Высокий"
  else "Средний"

/-! ## Array helpers -/

/-- JavaScript `Array.prototype.findIndex`; `none` stands for the result `-1`. -/
def findIndex (p : Task → Bool) : List Task → Option Nat
  | [] => none
  | t :: ts => if p t then some 0 else (findIndex p ts).map (· + 1)

/-- The assignment `this.tasks[index] = updatedTask` for an `index` returned by
`findIndex`: for `-1` it sets the property named "-1" and leaves the elements
and the length of the array as they are. -/
def assignAt (tasks : List Task) (index : Option Nat) (updatedTask : Task) : List Task :=
  match index with
  | none => tasks
  | some i => tasks.set i updatedTask

/-! ## Rendering -/

/-- The local variable `filteredTasks` of `renderTasks`. -/
def filteredTasks (tasks : List Task) (currentFilter : String) : List Task :=
  if currentFilter = "active" then tasks.filter (fun task => !task.completed)
  else if currentFilter = "completed" then tasks.filter (fun task => task.completed)
  else tasks

/-- The element built for one task in the `forEach` of `renderTasks`. -/
def taskElement (task : Task) : TaskElement :=
  { className := "task-item " ++ (if task.completed then "completed" else "") ++
      " priority-" ++ task.priority
    checked := task.completed
    textClass := "task-text " ++ (if task.completed then "completed" else "")
    textHtml := escapeHtml task.text
    priorityText := getPriorityText task.priority
    taskId := task.id }

/-- The method `updateEmptyState()`. -/
def updateEmptyState (s : State) : State :=
  if s.tasks.length = 0 then { s with emptyStateHidden := false }
  else { s with emptyStateHidden := true }

/-- The method `updateStats()`. -/
def updateStats (s : State) : State :=
  let total := s.tasks.length
  let completed := (s.tasks.filter (fun task => task.completed)).length
  let pending := total - completed
  { s with
    totalTasks := "Всего задач: " ++ toString total
    completedTasks := "Выполнено: " ++ toString completed
    pendingTasks := "Осталось: " ++ toString pending }

/-- The method `renderTasks()`. -/
def renderTasks (s : State) : State :=
  updateStats (updateEmptyState
    { s with tasksList := (filteredTasks s.tasks s.currentFilter).map taskElement })

/-- The method `showNotification(message, type)`: the element appended to the
document body. -/
def showNotification (message type : String) (s : State) : State :=
  { s with notifications := s.notifications ++ [{ message := message, type := type }] }

/-! ## Requests and responses -/

/-- The request handed to `fetch`: method, path and JSON body. -/
inductive Request where
  | getTasks
  | postTask (text priority : String)
  | putCompleted (id : Nat) (completed : Bool)
  | putEdit (id : Option Nat) (text priority : String)
  | deleteTask (id : Nat)
  | clearCompleted
  deriving DecidableEq, Repr

/-- What `await fetch(...)` followed by `await response.json()` yields:
`rejected` when the `fetch` promise rejects (network-level failure), otherwise
the status of the response and its parsed body (`none` when `json()` rejects;
the body is looked at on the `response.ok` branch only). -/
inductive FetchResult (β : Type) where
  | rejected
  | response (status : Nat) (body : Option β)
  deriving DecidableEq, Repr

/-- The getter `response.ok`: the status is in the range 200-299. -/
def ok (status : Nat) : Bool :=
  200 ≤ status && status ≤ 299

/-! ## The methods of `TodoApp` -/

/-- Fields set by the constructor, before `loadTasks()` is started.  The values
of the document (inputs empty, priority selects on `medium`, dialog hidden,
location `/`) are those of a freshly served page; the markup is not part of
the script and no statement below depends on them. -/
def init : State :=
  { tasks := []
    currentFilter := "all"
    editingTaskId := none
    taskInput := ""
    prioritySelect := "medium"
    editTaskInput := ""
    editPrioritySelect := "medium"
    modalDisplay := "none"
    tasksList := []
    emptyStateHidden := false
    totalTasks := ""
    completedTasks := ""
    pendingTasks := ""
    notifications := []
    location := "/" }

/-- `loadTasks()` up to the `await`: the request is sent, nothing is written. -/
def loadTasksBegin (s : State) : State × Option Request :=
  (s, some Request.getTasks)

/-- `loadTasks()` from the `await` on. -/
def loadTasksResume (r : FetchResult (List Task)) (s : State) : State :=
  match r with
  | .rejected => showNotification "Ошибка загрузки задач" "error" s
  | .response status body =>
    if ok status then
      match body with
      | some tasks => renderTasks { s with tasks := tasks }
      | none => showNotification "Ошибка загрузки задач" "error" s
    else if status = 401 then { s with location := "/login" }
    else showNotification "Ошибка загрузки задач" "error" s

/-- `addTask()` up to the `await`. -/
def addTaskBegin (s : State) : State × Option Request :=
  let text := trim s.taskInput
  if text = "" then (showNotification "Введите текст задачи!" "warning" s, none)
  else (s, some (Request.postTask text s.prioritySelect))

/-- `addTask()` from the `await` on. -/
def addTaskResume (r : FetchResult Task) (s : State) : State :=
  match r with
  | .rejected => showNotification "Ошибка добавления задачи" "error" s
  | .response status body =>
    if ok status then
      match body with
      | some newTask =>
        showNotification "Задача успешно добавлена!" "success"
          { renderTasks { s with tasks := s.tasks ++ [newTask] } with taskInput := "" }
      | none => showNotification "Ошибка добавления задачи" "error" s
    else if status = 401 then { s with location := "/login" }
    else showNotification "Ошибка добавления задачи" "error" s

/-- `toggleTask(id)` up to the `await`.  When no task has this id, `task` is
`undefined`, reading `task.completed` throws inside the `try` and the `catch`
reports the error; no request is sent. -/
def toggleTaskBegin (id : Nat) (s : State) : State × Option Request :=
  match s.tasks.find? (fun t => t.id == id) with
  | some task => (s, some (Request.putCompleted id (!task.completed)))
  | none => (showNotification "Ошибка обновления задачи" "error" s, none)

/-- `toggleTask(id)` from the `await` on; `id` is the argument captured by the
call. -/
def toggleTaskResume (id : Nat) (r : FetchResult Task) (s : State) : State :=
  match r with
  | .rejected => showNotification "Ошибка обновления задачи" "error" s
  | .response status body =>
    if ok status then
      match body with
      | some updatedTask =>
        let index := findIndex (fun t => t.id == id) s.tasks
        let s1 := renderTasks { s with tasks := assignAt s.tasks index updatedTask }
        if updatedTask.completed then
          showNotification "Задача отмечена как выполненная!" "success" s1
        else s1
      | none => showNotification "Ошибка обновления задачи" "error" s
    else if status = 401 then { s with location := "/login" }
    else showNotification "Ошибка обновления задачи" "error" s

/-- The method `openEditModal(id)`. -/
def openEditModal (id : Nat) (s : State) : State :=
  match s.tasks.find? (fun t => t.id == id) with
  | some task =>
    { s with
      editingTaskId := some id
      editTaskInput := task.text
      editPrioritySelect := task.priority
      modalDisplay := "block" }
  | none => s

/-- The method `closeEditModal()`. -/
def closeEditModal (s : State) : State :=
  { s with modalDisplay := "none", editingTaskId := none }

/-- `saveEdit()` up to the `await`; the path of the request is built from
`this.editingTaskId` as it is now. -/
def saveEditBegin (s : State) : State × Option Request :=
  let text := trim s.editTaskInput
  if text = "" then
    (showNotification "Текст задачи не может быть пустым!" "warning" s, none)
  else (s, some (Request.putEdit s.editingTaskId text s.editPrioritySelect))

/-- `saveEdit()` from the `await` on; `this.editingTaskId` is read from the
state in which the response arrives (`null` equals no task id). -/
def saveEditResume (r : FetchResult Task) (s : State) : State :=
  match r with
  | .rejected => showNotification "Ошибка обновления задачи" "error" s
  | .response status body =>
    if ok status then
      match body with
      | some updatedTask =>
        let index := findIndex (fun t => some t.id == s.editingTaskId) s.tasks
        showNotification "Задача обновлена!" "success"
          (closeEditModal (renderTasks { s with tasks := assignAt s.tasks index updatedTask }))
      | none => showNotification "Ошибка обновления задачи" "error" s
    else if status = 401 then { s with location := "/login" }
    else showNotification "Ошибка обновления задачи" "error" s

/-- `deleteTask(id)` up to the `await`; `confirmed` is the answer of `confirm`. -/
def deleteTaskBegin (id : Nat) (confirmed : Bool) (s : State) : State × Option Request :=
  if confirmed then (s, some (Request.deleteTask id)) else (s, none)

/-- `deleteTask(id)` from the `await` on; the body of the response is not read. -/
def deleteTaskResume (id : Nat) (r : FetchResult Unit) (s : State) : State :=
  match r with
  | .rejected => showNotification "Ошибка удаления задачи" "error" s
  | .response status _ =>
    if ok status then
      showNotification "Задача удалена!" "info"
        (renderTasks { s with tasks := s.tasks.filter (fun task => task.id != id) })
    else if status = 401 then { s with location := "/login" }
    else showNotification "Ошибка удаления задачи" "error" s

/-- `clearCompletedTasks()` up to the `await`. -/
def clearCompletedTasksBegin (confirmed : Bool) (s : State) : State × Option Request :=
  if confirmed then (s, some Request.clearCompleted) else (s, none)

/-- `clearCompletedTasks()` from the `await` on; the body is `result.count`. -/
def clearCompletedTasksResume (r : FetchResult Nat) (s : State) : State :=
  match r with
  | .rejected => showNotification "Ошибка очистки задач" "error" s
  | .response status body =>
    if ok status then
      match body with
      | some count =>
        showNotification ("Удалено выполненных задач: " ++ toString count) "info"
          (renderTasks { s with tasks := s.tasks.filter (fun task => !task.completed) })
      | none => showNotification "Ошибка очистки задач" "error" s
    else if status = 401 then { s with location := "/login" }
    else showNotification "Ошибка очистки задач" "error" s

/-- The click listener of a filter button whose `data-filter` is `filter`. -/
def clickFilter (filter : String) (s : State) : State :=
  renderTasks { s with currentFilter := filter }

/-! ## Event loop

The page reacts to one event at a time: a user gesture runs a listener up to
its `await`, the arrival of a response runs the rest of the `async` method that
sent the request.  Requests that were sent and not yet answered are kept in
`Sys.inflight`, each with the call that waits for it. -/

/-- The `async` call suspended at its `await`, with the arguments it captured
(`saveEdit` captures no task id). -/
inductive Pending where
  | loadTasks
  | addTask
  | toggleTask (id : Nat)
  | saveEdit
  | deleteTask (id : Nat)
  | clearCompletedTasks
  deriving DecidableEq, Repr

/-- The application together with the requests awaiting a response. -/
structure Sys where
  app : State
  inflight : List (Request × Pending)
  deriving DecidableEq, Repr

/-- Gestures of the user and arrivals of responses; `i` is the position of the
answered request in `Sys.inflight`. -/
inductive Event where
  | inputTask (text : String)
  | selectPriority (priority : String)
  | clickAdd
  | clickFilterBtn (filter : String)
  | clickClearCompleted (confirmed : Bool)
  | changeCheckbox (id : Nat)
  | clickEdit (id : Nat)
  | clickDelete (id : Nat) (confirmed : Bool)
  | inputEdit (text : String)
  | selectEditPriority (priority : String)
  | clickSave
  | clickCancel
  | loadResponse (i : Nat) (r : FetchResult (List Task))
  | addResponse (i : Nat) (r : FetchResult Task)
  | toggleResponse (i : Nat) (r : FetchResult Task)
  | saveResponse (i : Nat) (r : FetchResult Task)
  | deleteResponse (i : Nat) (r : FetchResult Unit)
  | clearResponse (i : Nat) (r : FetchResult Nat)

/-- Records the request sent by the first half of an `async` method. -/
def send (s : Sys) (k : Pending) (out : State × Option Request) : Sys :=
  match out.2 with
  | some req => { app := out.1, inflight := s.inflight ++ [(req, k)] }
  | none => { app := out.1, inflight := s.inflight }

/-- A row whose listeners carry `id` is in the rendered list. -/
def hasRow (s : State) (id : Nat) : Bool :=
  s.tasksList.any (fun row => row.taskId == id)

/-- The state after `new TodoApp()`: fields initialised, `loadTasks()` waiting
for its response. -/
def start : Sys :=
  send { app := init, inflight := [] } Pending.loadTasks (loadTasksBegin init)

/-- One reaction of the page.  The listeners are those installed by
`initEventListeners` and by `renderTasks`; a row listener exists only for a
rendered row, the buttons of the dialog are reachable only while the dialog is
shown, a response resumes only the call that sent the request. -/
def step (s : Sys) : Event → Option Sys
  | .inputTask text => some { s with app := { s.app with taskInput := text } }
  | .selectPriority priority => some { s with app := { s.app with prioritySelect := priority } }
  | .clickAdd => some (send s Pending.addTask (addTaskBegin s.app))
  | .clickFilterBtn filter => some { s with app := clickFilter filter s.app }
  | .clickClearCompleted confirmed =>
    some (send s Pending.clearCompletedTasks (clearCompletedTasksBegin confirmed s.app))
  | .changeCheckbox id =>
    if hasRow s.app id then some (send s (Pending.toggleTask id) (toggleTaskBegin id s.app))
    else none
  | .clickEdit id =>
    if hasRow s.app id then some { s with app := openEditModal id s.app } else none
  | .clickDelete id confirmed =>
    if hasRow s.app id then
      some (send s (Pending.deleteTask id) (deleteTaskBegin id confirmed s.app))
    else none
  | .inputEdit text =>
    if s.app.modalDisplay = "block" then
      some { s with app := { s.app with editTaskInput := text } }
    else none
  | .selectEditPriority priority =>
    if s.app.modalDisplay = "block" then
      some { s with app := { s.app with editPrioritySelect := priority } }
    else none
  | .clickSave =>
    if s.app.modalDisplay = "block" then some (send s Pending.saveEdit (saveEditBegin s.app))
    else none
  | .clickCancel =>
    if s.app.modalDisplay = "block" then some { s with app := closeEditModal s.app }
    else none
  | .loadResponse i r =>
    match s.inflight[i]? with
    | some (_, Pending.loadTasks) =>
      some { app := loadTasksResume r s.app, inflight := s.inflight.eraseIdx i }
    | _ => none
  | .addResponse i r =>
    match s.inflight[i]? with
    | some (_, Pending.addTask) =>
      some { app := addTaskResume r s.app, inflight := s.inflight.eraseIdx i }
    | _ => none
  | .toggleResponse i r =>
    match s.inflight[i]? with
    | some (_, Pending.toggleTask id) =>
      some { app := toggleTaskResume id r s.app, inflight := s.inflight.eraseIdx i }
    | _ => none
  | .saveResponse i r =>
    match s.inflight[i]? with
    | some (_, Pending.saveEdit) =>
      some { app := saveEditResume r s.app, inflight := s.inflight.eraseIdx i }
    | _ => none
  | .deleteResponse i r =>
    match s.inflight[i]? with
    | some (_, Pending.deleteTask id) =>
      some { app := deleteTaskResume id r s.app, inflight := s.inflight.eraseIdx i }
    | _ => none
  | .clearResponse i r =>
    match s.inflight[i]? with
    | some (_, Pending.clearCompletedTasks) =>
      some { app := clearCompletedTasksResume r s.app, inflight := s.inflight.eraseIdx i }
    | _ => none

/-- The contract of the remote service on successful responses: a loaded list
has distinct ids, a created task has an id that is not in the store, an update
returns a record with the id of the request path (and does not succeed on the
path of no task). -/
def honours (s : Sys) : Event → Bool
  | .loadResponse _ (.response status (some tasks)) =>
    !ok status || decide (tasks.map (fun t => t.id)).Nodup
  | .addResponse _ (.response status (some newTask)) =>
    !ok status || !s.app.tasks.any (fun t => t.id == newTask.id)
  | .toggleResponse i (.response status (some updatedTask)) =>
    !ok status ||
      (match s.inflight[i]? with
       | some (Request.putCompleted id _, _) => updatedTask.id == id
       | _ => true)
  | .saveResponse i (.response status (some updatedTask)) =>
    !ok status ||
      (match s.inflight[i]? with
       | some (Request.putEdit (some id) _ _, _) => updatedTask.id == id
       | some (Request.putEdit none _ _, _) => false
       | _ => true)
  | _ => true

/-- Runs a sequence of events; `none` when an event is not possible in the state
it meets or a response breaks the contract of the service. -/
def run (s : Sys) : List Event → Option Sys
  | [] => some s
  | e :: es => if honours s e then (step s e).bind (fun s1 => run s1 es) else none

/-- Two tasks as the service may return them. -/
def taskA : Task := { id := 1, text := "Buy milk", priority := "high", completed := false }

/-- See `taskA`. -/
def taskB : Task := { id := 2, text := "Call Bob", priority := "low", completed := false }

/-- The record the service returns for `PUT /tasks/1` with the text "Buy bread". -/
def taskA2 : Task := { id := 1, text := "Buy bread", priority := "high", completed := false }

/-- A session in which the edit dialog is cancelled and reopened on another
task while the save request of the first edit is pending. -/
def saveRaceTrace : List Event :=
  [ .loadResponse 0 (.response 200 (some [taskA, taskB])),
    .clickEdit 1,
    .inputEdit "Buy bread",
    .clickSave,
    .clickCancel,
    .clickEdit 2,
    .saveResponse 0 (.response 200 (some taskA2)) ]

/-- The record the service returns for `PUT /tasks/1` with `completed: true`
after the text of task 1 was changed to "Buy bread". -/
def taskA2Done : Task := { id := 1, text := "Buy bread", priority := "high", completed := true }

/-- The session `saveRaceTrace` followed by a click on the checkbox of a row of
id 1 and the successful answer to its request. -/
def toggleAfterRaceTrace : List Event :=
  saveRaceTrace ++
    [ .changeCheckbox 1,
      .toggleResponse 0 (.response 200 (some taskA2Done)) ]

/-! ## Projections of the elementary steps -/

@[simp] theorem renderTasks_tasks (s : State) : (renderTasks s).tasks = s.tasks := by
  simp only [renderTasks, updateStats, updateEmptyState]; split <;> rfl

@[simp] theorem renderTasks_tasksList (s : State) :
    (renderTasks s).tasksList = (filteredTasks s.tasks s.currentFilter).map taskElement := by
  simp only [renderTasks, updateStats, updateEmptyState]; split <;> rfl

@[simp] theorem renderTasks_currentFilter (s : State) :
    (renderTasks s).currentFilter = s.currentFilter := by
  simp only [renderTasks, updateStats, updateEmptyState]; split <;> rfl

@[simp] theorem renderTasks_editingTaskId (s : State) :
    (renderTasks s).editingTaskId = s.editingTaskId := by
  simp only [renderTasks, updateStats, updateEmptyState]; split <;> rfl

@[simp] theorem renderTasks_notifications (s : State) :
    (renderTasks s).notifications = s.notifications := by
  simp only [renderTasks, updateStats, updateEmptyState]; split <;> rfl

@[simp] theorem renderTasks_location (s : State) :
    (renderTasks s).location = s.location := by
  simp only [renderTasks, updateStats, updateEmptyState]; split <;> rfl

@[simp] theorem showNotification_tasks (m ty : String) (s : State) :
    (showNotification m ty s).tasks = s.tasks := rfl

@[simp] theorem showNotification_tasksList (m ty : String) (s : State) :
    (showNotification m ty s).tasksList = s.tasksList := rfl

@[simp] theorem showNotification_currentFilter (m ty : String) (s : State) :
    (showNotification m ty s).currentFilter = s.currentFilter := rfl

@[simp] theorem showNotification_editingTaskId (m ty : String) (s : State) :
    (showNotification m ty s).editingTaskId = s.editingTaskId := rfl

@[simp] theorem showNotification_location (m ty : String) (s : State) :
    (showNotification m ty s).location = s.location := rfl

@[simp] theorem showNotification_notifications (m ty : String) (s : State) :
    (showNotification m ty s).notifications
      = s.notifications ++ [{ message := m, type := ty }] := rfl

theorem filteredTasks_active (T : List Task) :
    filteredTasks T "active" = T.filter (fun t => t.completed == false) := by
  simp only [filteredTasks, if_true]
  congr 1
  funext t
  cases t.completed <;> rfl

theorem filteredTasks_completed (T : List Task) :
    filteredTasks T "completed" = T.filter (fun t => t.completed == true) := by
  have hne : ¬ ("completed" = "active") := by decide
  simp only [filteredTasks, if_neg hne, if_true]
  congr 1
  funext t
  cases t.completed <;> rfl

theorem filteredTasks_all (T : List Task) : filteredTasks T "all" = T := by
  have h1 : ¬ ("all" = "active") := by decide
  have h2 : ¬ ("all" = "completed") := by decide
  simp only [filteredTasks, if_neg h1, if_neg h2]

/-- Filtering the store by a predicate on tasks commutes with the filter
projection. -/
theorem filteredTasks_filter (q : Task → Bool) (T : List Task) (m : String) :
    filteredTasks (T.filter q) m = (filteredTasks T m).filter q := by
  unfold filteredTasks
  split
  · simp only [List.filter_filter, Bool.and_comm]
  · split
    · simp only [List.filter_filter, Bool.and_comm]
    · rfl

/-! ## `findIndex` and the in-place assignment -/

theorem findIndex_eq_none_of_forall {p : Task → Bool} {l : List Task}
    (h : ∀ t ∈ l, p t = false) : findIndex p l = none := by
  induction l with
  | nil => rfl
  | cons t ts ih =>
    have ht : p t = false := h t (List.mem_cons_self _ _)
    have hts : findIndex p ts = none := ih (fun a ha => h a (List.mem_cons_of_mem _ ha))
    simp [findIndex, ht, hts]

theorem findIndex_first {p : Task → Bool} :
    ∀ (l : List Task) (i : Nat), (l[i]?).map p = some true →
      (∀ j, j < i → (l[j]?).map p ≠ some true) → findIndex p l = some i := by
  intro l
  induction l with
  | nil => intro i h _; simp at h
  | cons t ts ih =>
    intro i h hfirst
    cases i with
    | zero =>
      have ht : p t = true := by simpa using h
      simp [findIndex, ht]
    | succ k =>
      have ht : p t = false := by
        have h0 := hfirst 0 (Nat.succ_pos k)
        cases hp : p t
        · rfl
        · exact absurd (by simp [hp]) h0
      have hk : findIndex p ts = some k := by
        apply ih k
        · simpa using h
        · intro j hj
          have := hfirst (j + 1) (Nat.succ_lt_succ hj)
          simpa using this
      simp [findIndex, ht, hk]

theorem findIndex_lt {p : Task → Bool} :
    ∀ (l : List Task) (i : Nat), findIndex p l = some i → i < l.length := by
  intro l
  induction l with
  | nil => intro i h; simp [findIndex] at h
  | cons t ts ih =>
    intro i h
    cases hp : p t
    · simp only [findIndex, hp] at h
      cases hts : findIndex p ts with
      | none => simp [hts] at h
      | some k =>
        have hk := ih k hts
        simp [hts] at h
        subst h
        simpa using hk
    · simp [findIndex, hp] at h
      subst h
      simp

/-- What `index = findIndex(t => t.id === x); tasks[index] = u` does to the
array. -/
theorem assignAt_findIndex (T : List Task) (x : Nat) (u : Task) :
    (assignAt T (findIndex (fun t => t.id == x) T) u).length = T.length
    ∧ (∀ i : Nat, (T[i]?).map (fun t : Task => t.id) = some x →
        ((T.map (fun t => t.id)).Nodup ∨
          ∀ j : Nat, j < i → (T[j]?).map (fun t : Task => t.id) ≠ some x) →
        (assignAt T (findIndex (fun t => t.id == x) T) u)[i]? = some u
        ∧ ∀ j : Nat, j ≠ i → (assignAt T (findIndex (fun t => t.id == x) T) u)[j]? = T[j]?)
    ∧ ((∀ t ∈ T, t.id ≠ x) → assignAt T (findIndex (fun t => t.id == x) T) u = T) := by
  refine ⟨?_, ?_, ?_⟩
  · cases findIndex (fun t => t.id == x) T <;> simp [assignAt]
  · intro i hi hor
    have hfirst : ∀ j : Nat, j < i → (T[j]?).map (fun t : Task => t.id) ≠ some x := by
      rcases hor with hnd | hf
      · intro j hj hjx
        have hlen : i < (T.map (fun t => t.id)).length := by
          cases hti : T[i]? with
          | none => simp [hti] at hi
          | some t =>
            have := (List.getElem?_eq_some.1 hti).1
            simpa using this
        have := (List.nodup_iff_getElem?_ne_getElem?.1 hnd) j i hj hlen
        apply this
        rw [List.getElem?_map, List.getElem?_map, hi, hjx]
      · exact hf
    have hidx : findIndex (fun t => t.id == x) T = some i := by
      apply findIndex_first
      · cases hti : T[i]? with
        | none => simp [hti] at hi
        | some t =>
          simp only [hti, Option.map_some', Option.some.injEq] at hi
          simp [hi]
      · intro j hj hjx
        apply hfirst j hj
        cases htj : T[j]? with
        | none => simp [htj] at hjx
        | some t =>
          simp only [htj, Option.map_some', Option.some.injEq, beq_iff_eq] at hjx
          simp [hjx]
    have hlt : i < T.length := findIndex_lt T i hidx
    rw [hidx]
    refine ⟨?_, ?_⟩
    · simp [assignAt, hlt]
    · intro j hj
      simp only [assignAt]
      exact List.getElem?_set_ne (Ne.symm hj)
  · intro habs
    rw [findIndex_eq_none_of_forall]
    · rfl
    · intro t ht
      simpa using habs t ht

/-! ## Filter projection (`renderTasks`) -/

/-- C1: for every task list `T`, the rows `renderTasks` builds are, in order,
the rows of the tasks with `completed == false` under the filter `active`, of
the tasks with `completed == true` under `completed`, and of all of `T` under
`all`; the listeners of the rows carry the ids of exactly those tasks. -/
theorem renderTasks_rows_filter (T : List Task) (s : State) :
    (renderTasks { s with tasks := T, currentFilter := "active" }).tasksList
        = (T.filter (fun t => t.completed == false)).map taskElement
    ∧ (renderTasks { s with tasks := T, currentFilter := "completed" }).tasksList
        = (T.filter (fun t => t.completed == true)).map taskElement
    ∧ (renderTasks { s with tasks := T, currentFilter := "all" }).tasksList
        = T.map taskElement
    ∧ filteredTasks T "active" = T.filter (fun t => t.completed == false)
    ∧ filteredTasks T "completed" = T.filter (fun t => t.completed == true)
    ∧ filteredTasks T "all" = T
    ∧ (renderTasks { s with tasks := T, currentFilter := "active" }).tasksList.map
        (fun row => row.taskId)
        = (T.filter (fun t => t.completed == false)).map (fun t => t.id) := by
  refine ⟨?_, ?_, ?_, filteredTasks_active T, filteredTasks_completed T,
    filteredTasks_all T, ?_⟩
  · rw [renderTasks_tasksList, filteredTasks_active]
  · rw [renderTasks_tasksList, filteredTasks_completed]
  · rw [renderTasks_tasksList, filteredTasks_all]
  · rw [renderTasks_tasksList, filteredTasks_active, List.map_map]
    rfl

/-! ## Delete and clear-completed -/

/-- C2: a confirmed `deleteTask(x)` sends the delete request, and when the
response is successful every filter view of the new store is the old view with
the tasks of id `x` filtered out (order kept), no view holds a task of id `x`,
every other task of a view stays in it, and the rendered rows are those of the
current view without `x`. -/
theorem deleteTask_views (s : State) (x status : Nat) (body : Option Unit) (m : String)
    (hok : ok status = true) :
    deleteTaskBegin x true s = (s, some (Request.deleteTask x))
    ∧ filteredTasks (deleteTaskResume x (.response status body) s).tasks m
        = (filteredTasks s.tasks m).filter (fun t => t.id != x)
    ∧ (∀ t ∈ filteredTasks (deleteTaskResume x (.response status body) s).tasks m, t.id ≠ x)
    ∧ (∀ t ∈ filteredTasks s.tasks m, t.id ≠ x →
        t ∈ filteredTasks (deleteTaskResume x (.response status body) s).tasks m)
    ∧ (deleteTaskResume x (.response status body) s).tasksList
        = ((filteredTasks s.tasks s.currentFilter).filter (fun t => t.id != x)).map
            taskElement := by
  have ht : (deleteTaskResume x (.response status body) s).tasks
      = s.tasks.filter (fun task => task.id != x) := by
    simp [deleteTaskResume, hok]
  have hv : filteredTasks (deleteTaskResume x (.response status body) s).tasks m
      = (filteredTasks s.tasks m).filter (fun t => t.id != x) := by
    rw [ht, filteredTasks_filter]
  refine ⟨rfl, hv, ?_, ?_, ?_⟩
  · intro t hmem
    rw [hv, List.mem_filter] at hmem
    simpa using hmem.2
  · intro t hmem hne
    rw [hv, List.mem_filter]
    exact ⟨hmem, by simpa using hne⟩
  · simp [deleteTaskResume, hok, filteredTasks_filter]

/-- Witness of C2: deleting id 1 from a store of three tasks. -/
theorem deleteTask_views_witness :
    filteredTasks (deleteTaskResume 1 (.response 200 none)
        { init with tasks := [⟨1, "a", "low", true⟩, ⟨2, "b", "high", false⟩,
            ⟨3, "c", "medium", true⟩] }).tasks "completed"
      = [⟨3, "c", "medium", true⟩] := by
  have h := (deleteTask_views
    { init with tasks := [⟨1, "a", "low", true⟩, ⟨2, "b", "high", false⟩,
        ⟨3, "c", "medium", true⟩] } 1 200 none "completed" (by decide)).2.1
  rw [h]
  decide

/-- C3, as stated, fails: the count shown is `result.count` of the response, not
a count taken from the store.  With a store holding one task that is not
completed and a successful response whose count is 1, nothing is removed and
the notification reports 1. -/
theorem clearCompleted_count_is_remote :
    (clearCompletedTasksResume (.response 200 (some 1))
        { init with tasks := [taskA] }).notifications
      = [{ message := "Удалено выполненных задач: 1", type := "info" }]
    ∧ (clearCompletedTasksResume (.response 200 (some 1))
        { init with tasks := [taskA] }).tasks = [taskA]
    ∧ [taskA].length
        - (clearCompletedTasksResume (.response 200 (some 1))
            { init with tasks := [taskA] }).tasks.length ≠ 1 := by
  refine ⟨?_, ?_, ?_⟩ <;> decide

/-- C3, amended: a successful `clearCompletedTasks` leaves exactly the tasks with
`completed == false`, in their order, so every completed task is removed and no
other; it queues one `info` notification whose text carries the count returned
by the service; that count is the number of tasks removed from the store
whenever it is the number of completed tasks of the store. -/
theorem clearCompleted_success (s : State) (status count : Nat) (hok : ok status = true) :
    (clearCompletedTasksResume (.response status (some count)) s).tasks
      = s.tasks.filter (fun t => t.completed == false)
    ∧ (∀ t ∈ (clearCompletedTasksResume (.response status (some count)) s).tasks,
        t.completed = false)
    ∧ (∀ t ∈ s.tasks, t.completed = false →
        t ∈ (clearCompletedTasksResume (.response status (some count)) s).tasks)
    ∧ (clearCompletedTasksResume (.response status (some count)) s).notifications
      = s.notifications ++
          [{ message := "Удалено выполненных задач: " ++ toString count, type := "info" }]
    ∧ (count = (s.tasks.filter (fun t => t.completed == true)).length →
        s.tasks.length
          - (clearCompletedTasksResume (.response status (some count)) s).tasks.length
          = count) := by
  have hpred : (fun task : Task => !task.completed) = (fun t : Task => t.completed == false) := by
    funext t
    cases t.completed <;> rfl
  have ht : (clearCompletedTasksResume (.response status (some count)) s).tasks
      = s.tasks.filter (fun t => t.completed == false) := by
    simp only [clearCompletedTasksResume, hok, if_true, showNotification_tasks,
      renderTasks_tasks, hpred]
  refine ⟨ht, ?_, ?_, ?_, ?_⟩
  · intro t hmem
    rw [ht, List.mem_filter] at hmem
    simpa using hmem.2
  · intro t hmem hc
    rw [ht, List.mem_filter]
    exact ⟨hmem, by simp [hc]⟩
  · simp only [clearCompletedTasksResume, hok, if_true, showNotification_notifications,
      renderTasks_notifications]
  · intro hcount
    rw [ht, hcount]
    have hsplit := List.length_eq_countP_add_countP (fun t : Task => t.completed == true) s.tasks
    simp only [List.countP_eq_length_filter] at hsplit
    have hneg : s.tasks.filter (fun a => decide ¬((a.completed == true) = true))
        = s.tasks.filter (fun t => t.completed == false) := by
      congr 1
      funext t
      cases t.completed <;> rfl
    rw [hneg] at hsplit
    omega

/-- Witness of C3 (amended): the store `[1 done, 2 open, 3 done]` and the count 2. -/
theorem clearCompleted_success_witness :
    (clearCompletedTasksResume (.response 200 (some 2))
        { init with tasks := [⟨1, "a", "low", true⟩, ⟨2, "b", "high", false⟩,
            ⟨3, "c", "medium", true⟩] }).tasks
      = [⟨2, "b", "high", false⟩] := by
  rw [(clearCompleted_success
    { init with tasks := [⟨1, "a", "low", true⟩, ⟨2, "b", "high", false⟩,
        ⟨3, "c", "medium", true⟩] } 200 2 (by decide)).1]
  decide

/-! ## Update commit (`toggleTask`, `saveEdit`) -/

/-- C4, as stated, fails on a store in which two entries have the same id: the
entry found is the first one.  On the store `[taskA, taskA2]` (both of id 1,
reached by `saveRaceTrace`) a task of id 1 is at position 1, yet the commit of
a successful update for id 1, in `toggleTask` and in `saveEdit` alike, writes
the returned record at position 0 and leaves position 1 as it was. -/
theorem update_writes_first_match_only :
    (([taskA, taskA2] : List Task)[1]?).map (fun t : Task => t.id) = some 1
    ∧ (toggleTaskResume 1 (.response 200 (some taskA2Done))
        { init with tasks := [taskA, taskA2] }).tasks = [taskA2Done, taskA2]
    ∧ (toggleTaskResume 1 (.response 200 (some taskA2Done))
        { init with tasks := [taskA, taskA2] }).tasks[1]? ≠ some taskA2Done
    ∧ (toggleTaskResume 1 (.response 200 (some taskA2Done))
        { init with tasks := [taskA, taskA2] }).tasks[0]?
        ≠ ([taskA, taskA2] : List Task)[0]?
    ∧ (saveEditResume (.response 200 (some taskA2Done))
        { init with tasks := [taskA, taskA2], editingTaskId := some 1 }).tasks
        = [taskA2Done, taskA2]
    ∧ (run start toggleAfterRaceTrace).map (fun s => s.app.tasks)
        = some [taskA2Done, taskA2] := by
  refine ⟨?_, ?_, ?_, ?_, ?_, ?_⟩ <;> decide

/-- C4, amended: committing a successful update (response in the 200 range with
record `u`) in `toggleTask(x)`, and in `saveEdit` while the task being edited
is `x`: the store keeps its length; if a task with id `x` is at position `i`
and `i` is the first position holding id `x` (which it is whenever the ids of
the store are distinct), the new store holds `u` at `i` and is unchanged at
every other position; if no task has id `x` the store is left as it is. -/
theorem update_replaces_in_place (s : State) (x status : Nat) (u : Task)
    (hok : ok status = true) :
    ∀ T' : List Task,
      (T' = (toggleTaskResume x (.response status (some u)) s).tasks ∨
       T' = (saveEditResume (.response status (some u))
              { s with editingTaskId := some x }).tasks) →
      T'.length = s.tasks.length
      ∧ (∀ i : Nat, (s.tasks[i]?).map (fun t : Task => t.id) = some x →
          ((s.tasks.map (fun t => t.id)).Nodup ∨
            ∀ j : Nat, j < i → (s.tasks[j]?).map (fun t : Task => t.id) ≠ some x) →
          T'[i]? = some u ∧ ∀ j : Nat, j ≠ i → T'[j]? = s.tasks[j]?)
      ∧ ((∀ t ∈ s.tasks, t.id ≠ x) → T' = s.tasks) := by
  intro T' hT'
  have htoggle : (toggleTaskResume x (.response status (some u)) s).tasks
      = assignAt s.tasks (findIndex (fun t => t.id == x) s.tasks) u := by
    simp only [toggleTaskResume, hok, if_true]
    split <;> simp
  have hpred : (fun t : Task => some t.id == some x) = (fun t : Task => t.id == x) := by
    funext t
    by_cases h : t.id = x <;> simp [h]
  have hsave : (saveEditResume (.response status (some u))
      { s with editingTaskId := some x }).tasks
      = assignAt s.tasks (findIndex (fun t => t.id == x) s.tasks) u := by
    simp only [saveEditResume, hok, if_true, closeEditModal, showNotification_tasks,
      renderTasks_tasks, hpred]
  have hT : T' = assignAt s.tasks (findIndex (fun t => t.id == x) s.tasks) u := by
    rcases hT' with h | h
    · rw [h, htoggle]
    · rw [h, hsave]
  rw [hT]
  exact assignAt_findIndex s.tasks x u

/-- Witness of C4 (amended): toggling id 2 in a store of two tasks with distinct
ids writes the returned record at position 1 and leaves every other position
as it was. -/
theorem update_replaces_in_place_witness :
    ((({ init with tasks := [⟨1, "a", "low", false⟩, ⟨2, "b", "high", false⟩] } :
        State).tasks[1]?).map (fun t : Task => t.id) = some 2)
    ∧ (({ init with tasks := [⟨1, "a", "low", false⟩, ⟨2, "b", "high", false⟩] } :
        State).tasks.map (fun t => t.id)).Nodup
    ∧ (toggleTaskResume 2 (.response 200 (some ⟨2, "b", "high", true⟩))
        { init with tasks := [⟨1, "a", "low", false⟩, ⟨2, "b", "high", false⟩] }).tasks.length
        = 2
    ∧ (toggleTaskResume 2 (.response 200 (some ⟨2, "b", "high", true⟩))
        { init with tasks := [⟨1, "a", "low", false⟩, ⟨2, "b", "high", false⟩] }).tasks[1]?
        = some ⟨2, "b", "high", true⟩
    ∧ (∀ j : Nat, j ≠ 1 →
        (toggleTaskResume 2 (.response 200 (some ⟨2, "b", "high", true⟩))
          { init with tasks := [⟨1, "a", "low", false⟩, ⟨2, "b", "high", false⟩] }).tasks[j]?
          = ({ init with tasks := [⟨1, "a", "low", false⟩, ⟨2, "b", "high", false⟩] } :
              State).tasks[j]?)
    ∧ (saveEditResume (.response 200 (some ⟨2, "b2", "high", false⟩))
        { ({ init with tasks := [⟨1, "a", "low", false⟩, ⟨2, "b", "high", false⟩] } : State)
            with editingTaskId := some 2 }).tasks[1]?
        = some ⟨2, "b2", "high", false⟩ := by
  have hpos : (({ init with tasks := [⟨1, "a", "low", false⟩, ⟨2, "b", "high", false⟩] } :
      State).tasks[1]?).map (fun t : Task => t.id) = some 2 := by decide
  have hnd : (({ init with tasks := [⟨1, "a", "low", false⟩, ⟨2, "b", "high", false⟩] } :
      State).tasks.map (fun t => t.id)).Nodup := by decide
  have ht := update_replaces_in_place
    { init with tasks := [⟨1, "a", "low", false⟩, ⟨2, "b", "high", false⟩] }
    2 200 ⟨2, "b", "high", true⟩ (by decide) _ (Or.inl rfl)
  have hs := update_replaces_in_place
    { init with tasks := [⟨1, "a", "low", false⟩, ⟨2, "b", "high", false⟩] }
    2 200 ⟨2, "b2", "high", false⟩ (by decide) _ (Or.inr rfl)
  exact ⟨hpos, hnd, ht.1, (ht.2.1 1 hpos (Or.inl hnd)).1, (ht.2.1 1 hpos (Or.inl hnd)).2,
    (hs.2.1 1 hpos (Or.inl hnd)).1⟩

/-! ## Client-side validation -/

theorem trimChars_eq_nil {cs : List Char} (h : ∀ c ∈ cs, isTrimChar c = true) :
    trimChars cs = [] := by
  have : cs.dropWhile isTrimChar = [] := List.dropWhile_eq_nil_iff.2 h
  simp [trimChars, this]

/-- C5: when the text is empty or made of whitespace only, `addTask` and
`saveEdit` send no request and change nothing but the notifications, to which
exactly one notification of type `warning` is appended: the store, the filter
and the edit session (task id, modal, drafts) stay as they were. -/
theorem blank_text_rejected (s : State) (text : String)
    (hblank : ∀ c ∈ text.data, isTrimChar c = true) :
    addTaskBegin { s with taskInput := text }
      = ({ s with
            taskInput := text
            notifications := s.notifications ++
              [{ message := "Введите текст задачи!", type := "warning" }] }, none)
    ∧ saveEditBegin { s with editTaskInput := text }
      = ({ s with
            editTaskInput := text
            notifications := s.notifications ++
              [{ message := "Текст задачи не может быть пустым!", type := "warning" }] },
          none) := by
  have ht : trim text = "" := by
    simp only [trim, trimChars_eq_nil hblank]
  constructor
  · simp only [addTaskBegin, ht, if_true]
    rfl
  · simp only [saveEditBegin, ht, if_true]
    rfl

/-- Witness of C5: the text of three blanks, while task 7 is being edited. -/
theorem blank_text_rejected_witness :
    (∀ c ∈ "   ".data, isTrimChar c = true)
    ∧ (saveEditBegin { init with editingTaskId := some 7, editTaskInput := "   " }).2 = none
    ∧ (saveEditBegin { init with editingTaskId := some 7, editTaskInput := "   " }).1.editingTaskId
        = some 7 := by
  have hb : ∀ c ∈ "   ".data, isTrimChar c = true := by decide
  have h := (blank_text_rejected { init with editingTaskId := some 7 } "   " hb).2
  refine ⟨hb, ?_, ?_⟩
  · rw [h]
  · rw [h]

/-! ## Failed and unauthorised requests -/

/-- The first half of an operation that sends a request leaves the state as it
is. -/
theorem begin_unchanged_of_sent (s : State) (id : Nat) :
    ∀ out : State × Option Request,
      (out = loadTasksBegin s ∨ out = addTaskBegin s ∨ out = toggleTaskBegin id s
        ∨ out = saveEditBegin s ∨ out = deleteTaskBegin id true s
        ∨ out = clearCompletedTasksBegin true s) →
      out.2 ≠ none → out.1 = s := by
  intro out h hsent
  rcases h with h | h | h | h | h | h
  · rw [h]; rfl
  · rw [h] at hsent ⊢
    simp only [addTaskBegin] at hsent ⊢
    split at hsent
    · exact absurd rfl hsent
    · rename_i hne
      simp [hne]
  · rw [h] at hsent ⊢
    simp only [toggleTaskBegin] at hsent ⊢
    split at hsent
    · rename_i task hfind
      simp [hfind]
    · exact absurd rfl hsent
  · rw [h] at hsent ⊢
    simp only [saveEditBegin] at hsent ⊢
    split at hsent
    · exact absurd rfl hsent
    · rename_i hne
      simp [hne]
  · rw [h]; rfl
  · rw [h]; rfl


/-- C6: for each of the six operations, when the request is rejected at network
level or answered with a status outside 200-299 other than 401 (`ok status`
is false and `status ≠ 401`), the state after the response is the state before
it with exactly one notification of type `error` appended: the store, the
filter and the editing task id (and everything else) are unchanged.  Sending
the request did not change the state either. -/
theorem request_failure_keeps_state (s : State) (status id : Nat)
    (bl : Option (List Task)) (bt : Option Task) (bu : Option Unit) (bc : Option Nat)
    (hnok : ok status = false) (h401 : status ≠ 401) :
    (∀ s1 : State,
      (s1 = loadTasksResume .rejected s ∨ s1 = loadTasksResume (.response status bl) s
        ∨ s1 = addTaskResume .rejected s ∨ s1 = addTaskResume (.response status bt) s
        ∨ s1 = toggleTaskResume id .rejected s
        ∨ s1 = toggleTaskResume id (.response status bt) s
        ∨ s1 = saveEditResume .rejected s ∨ s1 = saveEditResume (.response status bt) s
        ∨ s1 = deleteTaskResume id .rejected s
        ∨ s1 = deleteTaskResume id (.response status bu) s
        ∨ s1 = clearCompletedTasksResume .rejected s
        ∨ s1 = clearCompletedTasksResume (.response status bc) s) →
      s1.tasks = s.tasks ∧ s1.currentFilter = s.currentFilter
      ∧ s1.editingTaskId = s.editingTaskId
      ∧ ∃ message : String,
          s1 = { s with notifications := s.notifications ++
                  [{ message := message, type := "error" }] })
    ∧ (∀ out : State × Option Request,
        (out = loadTasksBegin s ∨ out = addTaskBegin s ∨ out = toggleTaskBegin id s
          ∨ out = saveEditBegin s ∨ out = deleteTaskBegin id true s
          ∨ out = clearCompletedTasksBegin true s) →
        out.2 ≠ none → out.1 = s) := by
  constructor
  · intro s1 h
    have key : ∃ message : String,
        s1 = { s with notifications := s.notifications ++
                [{ message := message, type := "error" }] } := by
      rcases h with h | h | h | h | h | h | h | h | h | h | h | h
      · exact ⟨_, h⟩
      · exact ⟨"Ошибка загрузки задач", by simp [h, loadTasksResume, hnok, h401, showNotification]⟩
      · exact ⟨_, h⟩
      · exact ⟨"Ошибка добавления задачи",
          by simp [h, addTaskResume, hnok, h401, showNotification]⟩
      · exact ⟨_, h⟩
      · exact ⟨"Ошибка обновления задачи",
          by simp [h, toggleTaskResume, hnok, h401, showNotification]⟩
      · exact ⟨_, h⟩
      · exact ⟨"Ошибка обновления задачи",
          by simp [h, saveEditResume, hnok, h401, showNotification]⟩
      · exact ⟨_, h⟩
      · exact ⟨"Ошибка удаления задачи",
          by simp [h, deleteTaskResume, hnok, h401, showNotification]⟩
      · exact ⟨_, h⟩
      · exact ⟨"Ошибка очистки задач",
          by simp [h, clearCompletedTasksResume, hnok, h401, showNotification]⟩
    obtain ⟨message, hm⟩ := key
    refine ⟨?_, ?_, ?_, message, hm⟩ <;> rw [hm]
  · exact begin_unchanged_of_sent s id

/-- Witness of C6: status 500 on the update sent by `saveEdit` while task 1 is
being edited. -/
theorem request_failure_keeps_state_witness :
    (saveEditResume (.response 500 none)
        (openEditModal 1 { init with tasks := [taskA, taskB] })).editingTaskId = some 1
    ∧ (saveEditResume (.response 500 none)
        (openEditModal 1 { init with tasks := [taskA, taskB] })).tasks = [taskA, taskB] := by
  have h := (request_failure_keeps_state
    (openEditModal 1 { init with tasks := [taskA, taskB] }) 500 1 none none none none
    (by decide) (by decide)).1 _ (Or.inr (Or.inr (Or.inr (Or.inr (Or.inr (Or.inr (Or.inr
      (Or.inl rfl))))))))
  exact ⟨h.2.2.1.trans (by decide), h.1.trans (by decide)⟩

/-- C7: for each of the six operations a response with status 401 changes
nothing but the location, which becomes `/login`: no notification is queued
and the store is left as it is; sending the request had changed nothing. -/
theorem unauthorized_redirects_to_login (s : State) (id : Nat)
    (bl : Option (List Task)) (bt : Option Task) (bu : Option Unit) (bc : Option Nat) :
    loadTasksResume (.response 401 bl) s = { s with location := "/login" }
    ∧ addTaskResume (.response 401 bt) s = { s with location := "/login" }
    ∧ toggleTaskResume id (.response 401 bt) s = { s with location := "/login" }
    ∧ saveEditResume (.response 401 bt) s = { s with location := "/login" }
    ∧ deleteTaskResume id (.response 401 bu) s = { s with location := "/login" }
    ∧ clearCompletedTasksResume (.response 401 bc) s = { s with location := "/login" }
    ∧ (∀ out : State × Option Request,
        (out = loadTasksBegin s ∨ out = addTaskBegin s ∨ out = toggleTaskBegin id s
          ∨ out = saveEditBegin s ∨ out = deleteTaskBegin id true s
          ∨ out = clearCompletedTasksBegin true s) →
        out.2 ≠ none → out.1 = s) := by
  have h : ok 401 = false := by decide
  refine ⟨?_, ?_, ?_, ?_, ?_, ?_, begin_unchanged_of_sent s id⟩
  · simp [loadTasksResume, h]
  · simp [addTaskResume, h]
  · simp [toggleTaskResume, h]
  · simp [saveEditResume, h]
  · simp [deleteTaskResume, h]
  · simp [clearCompletedTasksResume, h]

/-- Witness of C7: `deleteTask(2)` confirmed on a store of two tasks, answered
with 401. -/
theorem unauthorized_redirects_to_login_witness :
    (deleteTaskBegin 2 true { init with tasks := [taskA, taskB] }).2 ≠ none
    ∧ (deleteTaskBegin 2 true { init with tasks := [taskA, taskB] }).1
        = { init with tasks := [taskA, taskB] }
    ∧ (deleteTaskResume 2 (.response 401 none) { init with tasks := [taskA, taskB] }).location
        = "/login"
    ∧ (deleteTaskResume 2 (.response 401 none)
        { init with tasks := [taskA, taskB] }).notifications = [] := by
  have h := unauthorized_redirects_to_login { init with tasks := [taskA, taskB] } 2
    none none none none
  have hsent : (deleteTaskBegin 2 true { init with tasks := [taskA, taskB] }).2 ≠ none := by
    decide
  refine ⟨hsent, ?_, ?_, ?_⟩
  · exact h.2.2.2.2.2.2 _ (Or.inr (Or.inr (Or.inr (Or.inr (Or.inl rfl))))) hsent
  · rw [h.2.2.2.2.1]
  · rw [h.2.2.2.2.1]
    rfl

/-! ## Notifications of successful operations -/

/-- C9, as stated, fails: a successful toggle from completed to not completed
commits the store and queues no notification. -/
theorem toggle_to_active_is_silent :
    (toggleTaskBegin 1 { init with tasks := [⟨1, "a", "medium", true⟩] }).2
      = some (Request.putCompleted 1 false)
    ∧ (toggleTaskResume 1 (.response 200 (some ⟨1, "a", "medium", false⟩))
        { init with tasks := [⟨1, "a", "medium", true⟩] }).tasks
      = [⟨1, "a", "medium", false⟩]
    ∧ (toggleTaskResume 1 (.response 200 (some ⟨1, "a", "medium", false⟩))
        { init with tasks := [⟨1, "a", "medium", true⟩] }).notifications = [] := by
  refine ⟨?_, ?_, ?_⟩ <;> decide

/-- C9, amended: a successful add, a successful toggle whose returned record is
completed, a successful edit save, delete and clear-completed each queue
exactly one notification (`success` for add, toggle and save, `info` for delete
and clear); a successful toggle whose returned record is not completed queues
none, while the store is committed by a toggle in either direction. -/
theorem success_notifications (s : State) (status id count : Nat) (t : Task)
    (bu : Option Unit) (hok : ok status = true) :
    (addTaskResume (.response status (some t)) s).notifications
      = s.notifications ++ [{ message := "Задача успешно добавлена!", type := "success" }]
    ∧ (t.completed = true →
        (toggleTaskResume id (.response status (some t)) s).notifications
          = s.notifications ++
              [{ message := "Задача отмечена как выполненная!", type := "success" }])
    ∧ (t.completed = false →
        (toggleTaskResume id (.response status (some t)) s).notifications = s.notifications)
    ∧ (saveEditResume (.response status (some t)) s).notifications
      = s.notifications ++ [{ message := "Задача обновлена!", type := "success" }]
    ∧ (deleteTaskResume id (.response status bu) s).notifications
      = s.notifications ++ [{ message := "Задача удалена!", type := "info" }]
    ∧ (clearCompletedTasksResume (.response status (some count)) s).notifications
      = s.notifications ++
          [{ message := "Удалено выполненных задач: " ++ toString count, type := "info" }]
    ∧ (toggleTaskResume id (.response status (some t)) s).tasks
      = assignAt s.tasks (findIndex (fun t0 => t0.id == id) s.tasks) t := by
  refine ⟨?_, ?_, ?_, ?_, ?_, ?_, ?_⟩
  · simp [addTaskResume, hok]
  · intro hc
    simp [toggleTaskResume, hok, hc]
  · intro hc
    simp [toggleTaskResume, hok, hc]
  · simp [saveEditResume, hok, closeEditModal]
  · simp [deleteTaskResume, hok]
  · simp [clearCompletedTasksResume, hok]
  · simp only [toggleTaskResume, hok, if_true]
    split <;> simp

/-- Witness of C9 (amended): toggling task 1 to completed queues the `success`
notification. -/
theorem success_notifications_witness :
    (toggleTaskResume 1 (.response 200 (some ⟨1, "a", "medium", true⟩))
        { init with tasks := [⟨1, "a", "medium", false⟩] }).notifications
      = [{ message := "Задача отмечена как выполненная!", type := "success" }] :=
  (success_notifications { init with tasks := [⟨1, "a", "medium", false⟩] } 200 1 0
    ⟨1, "a", "medium", true⟩ none (by decide)).2.1 rfl

/-! ## Distinct ids -/

theorem findIndex_sat {p : Task → Bool} :
    ∀ (l : List Task) (i : Nat), findIndex p l = some i → (l[i]?).map p = some true := by
  intro l
  induction l with
  | nil => intro i h; simp [findIndex] at h
  | cons t ts ih =>
    intro i h
    cases hp : p t
    · simp only [findIndex, hp] at h
      cases hts : findIndex p ts with
      | none => simp [hts] at h
      | some k =>
        have hk := ih k hts
        simp [hts] at h
        subst h
        simpa using hk
    · simp [findIndex, hp] at h
      subst h
      simp [hp]

/-- Overwriting the entry found by id with a record of the same id keeps the
list of ids. -/
theorem map_id_assignAt (T : List Task) (x : Nat) (u : Task) (hu : u.id = x) :
    (assignAt T (findIndex (fun t => t.id == x) T) u).map (fun t => t.id)
      = T.map (fun t => t.id) := by
  cases hidx : findIndex (fun t => t.id == x) T with
  | none => rfl
  | some i =>
    have hsat := findIndex_sat T i hidx
    simp only [assignAt]
    apply List.ext_getElem?
    intro j
    by_cases hj : j = i
    · subst hj
      cases htj : T[j]? with
      | none => simp [htj] at hsat
      | some t =>
        have hlt : j < T.length := (List.getElem?_eq_some.1 htj).1
        simp only [htj, Option.map_some', Option.some.injEq, beq_iff_eq] at hsat
        have hget : T[j] = t := (List.getElem?_eq_some.1 htj).2
        simp [hu, hlt, hget, hsat]
    · simp [List.getElem?_set_ne (Ne.symm hj)]

/-- The store transitions keep the ids distinct when the service honours its
contract, the commit of `saveEdit` under the further condition that the task
being edited when the response arrives is the task of the returned record. -/
theorem distinct_ids_preserved (s : State) (status : Nat) (hok : ok status = true)
    (hinv : (s.tasks.map (fun t => t.id)).Nodup) :
    (init.tasks.map (fun t => t.id)).Nodup
    ∧ (∀ tasks : List Task, (tasks.map (fun t => t.id)).Nodup →
        ((loadTasksResume (.response status (some tasks)) s).tasks.map (fun t => t.id)).Nodup)
    ∧ (∀ newTask : Task, (∀ t ∈ s.tasks, t.id ≠ newTask.id) →
        ((addTaskResume (.response status (some newTask)) s).tasks.map (fun t => t.id)).Nodup)
    ∧ (∀ (x : Nat) (u : Task), u.id = x →
        ((toggleTaskResume x (.response status (some u)) s).tasks.map (fun t => t.id)).Nodup)
    ∧ (∀ (x : Nat) (u : Task), u.id = x → s.editingTaskId = some x →
        ((saveEditResume (.response status (some u)) s).tasks.map (fun t => t.id)).Nodup)
    ∧ (∀ (x : Nat) (bu : Option Unit),
        ((deleteTaskResume x (.response status bu) s).tasks.map (fun t => t.id)).Nodup)
    ∧ (∀ count : Nat,
        ((clearCompletedTasksResume (.response status (some count)) s).tasks.map
          (fun t => t.id)).Nodup) := by
  refine ⟨by decide, ?_, ?_, ?_, ?_, ?_, ?_⟩
  · intro tasks h
    simpa [loadTasksResume, hok] using h
  · intro newTask hnew
    have : (addTaskResume (.response status (some newTask)) s).tasks
        = s.tasks ++ [newTask] := by
      simp [addTaskResume, hok]
    rw [this, List.map_append, List.nodup_append]
    refine ⟨hinv, by simp, ?_⟩
    intro a ha hb
    simp only [List.map_cons, List.map_nil, List.mem_singleton] at hb
    obtain ⟨t, ht, hta⟩ := List.mem_map.1 ha
    exact hnew t ht (hta.trans hb)
  · intro x u hu
    have : (toggleTaskResume x (.response status (some u)) s).tasks
        = assignAt s.tasks (findIndex (fun t => t.id == x) s.tasks) u := by
      simp only [toggleTaskResume, hok, if_true]
      split <;> simp
    rw [this, map_id_assignAt s.tasks x u hu]
    exact hinv
  · intro x u hu hedit
    have hpred : (fun t : Task => some t.id == some x) = (fun t : Task => t.id == x) := by
      funext t
      by_cases h : t.id = x <;> simp [h]
    have : (saveEditResume (.response status (some u)) s).tasks
        = assignAt s.tasks (findIndex (fun t => t.id == x) s.tasks) u := by
      simp only [saveEditResume, hok, if_true, closeEditModal, showNotification_tasks,
        renderTasks_tasks, hedit, hpred]
    rw [this, map_id_assignAt s.tasks x u hu]
    exact hinv
  · intro x bu
    have : (deleteTaskResume x (.response status bu) s).tasks
        = s.tasks.filter (fun task => task.id != x) := by
      simp [deleteTaskResume, hok]
    rw [this]
    exact hinv.sublist ((List.filter_sublist _).map _)
  · intro count
    have : (clearCompletedTasksResume (.response status (some count)) s).tasks
        = s.tasks.filter (fun task => !task.completed) := by
      simp [clearCompletedTasksResume, hok]
    rw [this]
    exact hinv.sublist ((List.filter_sublist _).map _)

/-! ## The save-edit response and the edit session -/

/-- C10: the response of `saveEdit` is applied by `this.editingTaskId` as it is
when the response arrives.  The request is sent for task 1; after cancel and
open on task 2 the successful response overwrites the entry of id 2 with the
record of id 1 and leaves the entry of id 1 as it was; after cancel alone the
store is not changed at all. -/
theorem saveEdit_response_uses_current_editingTaskId :
    (saveEditBegin { openEditModal 1 { init with tasks := [taskA, taskB] } with
        editTaskInput := "Buy bread" }).2
      = some (Request.putEdit (some 1) "Buy bread" "high")
    ∧ (saveEditResume (.response 200 (some taskA2))
        (openEditModal 2 (closeEditModal
          (saveEditBegin { openEditModal 1 { init with tasks := [taskA, taskB] } with
            editTaskInput := "Buy bread" }).1))).tasks
      = [taskA, taskA2]
    ∧ (saveEditResume (.response 200 (some taskA2))
        (closeEditModal
          (saveEditBegin { openEditModal 1 { init with tasks := [taskA, taskB] } with
            editTaskInput := "Buy bread" }).1)).tasks
      = [taskA, taskB] := by
  refine ⟨?_, ?_, ?_⟩ <;> decide

/-- C8: a state with two tasks of the same id is reachable although every
response honours the contract of the service: the session `saveRaceTrace` ends
with the store ids `[1, 1]`. -/
theorem distinct_ids_broken_by_saveEdit :
    (run start saveRaceTrace).map (fun s => s.app.tasks.map (fun t => t.id)) = some [1, 1]
    ∧ ¬ ([1, 1] : List Nat).Nodup := by
  refine ⟨?_, by decide⟩
  decide

end TodoApp
